import Mathlib

/-!
Shallow embedding of the MindTracker backend (Healthy-habits-tracker-hk).

The definitions below are translated from the Express route handlers and
Mongoose schemas of the repository:

* `src/MindTracker/BackEnd/routes/habits.js` — habit-entry logging
  (`router.post('/:id/entries')`), habit statistics (`router.get('/stats')`);
* `src/MindTracker/BackEnd/routes/moods.js` — mood logging (`router.post('/')`),
  mood statistics (`router.get('/stats')`);
* `src/MindTracker/BackEnd/routes/goals.js` — goal progress
  (`router.post('/:id/progress')`), goal statistics (`router.get('/stats')`);
* the Mongoose models `Habit`, `HabitEntry`, `Mood`, `Goal` (field defaults).

Modelling conventions:
* Calendar days are numbered by `ℕ`; `moment().startOf('day')` for the current
  request is the parameter `today`, and `moment().subtract(1,'day').startOf('day')`
  is `today - 1`.  All queries in the embedded routes are already scoped to one
  authenticated user and one habit, so a state holds just that owner's records.
* JavaScript `Number` values that the routes validate as non-negative integers
  (`isInt({ min: 0 })` / schema `min: 0`) are modelled as `ℕ`; values produced
  by division (`Math.round` inputs) are modelled in `ℚ` with an explicit
  rounding function `jsRound`.
* Fields absent from a request body are `Option.none`; Mongoose
  `findByIdAndUpdate(_, body)` sets exactly the fields present in the body.
-/

/-- JavaScript `Math.round` on a rational: floor of `q + 1/2`. -/
def jsRound (q : ℚ) : ℤ := ⌊q + 1/2⌋

/-! ## Habit entries (models/HabitEntry.js, routes/habits.js) -/

/-- One `HabitEntry` document, restricted to the fields the routes read or
write: `date` (day number), `completed` (schema default `false`),
`value` (schema default `0`), `notes` (no default). -/
structure HabitEntry where
  day : ℕ
  completed : Bool
  value : ℕ
  notes : Option String
deriving Repr, DecidableEq

/-- Request body of `POST /api/habits/:id/entries`: `completed` is required
(validated `isBoolean`), `value` and `notes` are optional. -/
structure EntryPatch where
  completed : Bool
  value : Option ℕ
  notes : Option String
deriving Repr, DecidableEq

/-- The `stats` subdocument of a `Habit` (models/Habit.js): defaults are all
zero, `lastCompleted` starts unset. -/
structure HabitStats where
  totalCompletions : ℕ
  currentStreak : ℕ
  longestStreak : ℕ
  lastCompleted : Option ℕ
deriving Repr, DecidableEq

/-- Persisted state relevant to one (user, habit) pair: that habit's entry
collection and its cached `stats`. -/
structure HabitState where
  entries : List HabitEntry
  stats : HabitStats
deriving Repr, DecidableEq

/-- A `new HabitEntry({...req.body, habit, user, date: today})`: body fields
override nothing, missing `value` gets the schema default `0`, missing `notes`
stays unset. -/
def newEntry (day : ℕ) (p : EntryPatch) : HabitEntry :=
  { day := day, completed := p.completed, value := p.value.getD 0, notes := p.notes }

/-- `HabitEntry.findByIdAndUpdate(entry._id, req.body)`: a partial update
setting exactly the fields present in the body; `date` is not touched. -/
def mergePatch (e : HabitEntry) (p : EntryPatch) : HabitEntry :=
  { e with
    completed := p.completed
    value := p.value.getD e.value
    notes := match p.notes with | some n => some n | none => e.notes }

/-- Lines 147–173 of routes/habits.js: look for an entry whose `date` falls on
`today`; update it in place if found, otherwise create a new entry dated
`today`.  The Mongoose unique index on (user, habit, date) means the updated
document is the first (only) match. -/
def upsertDailyEntry : List HabitEntry → ℕ → EntryPatch → List HabitEntry
  | [], day, p => [newEntry day p]
  | e :: rest, day, p =>
      if e.day = day then mergePatch e p :: rest
      else e :: upsertDailyEntry rest day p

/-- Lines 147–198 of routes/habits.js (`router.post('/:id/entries')`): upsert
today's entry, then — only when the body has `completed = true` — update the
cached stats: `totalCompletions += 1`, `lastCompleted = now`, `currentStreak`
becomes `+1` if yesterday has a completed entry and `1` otherwise, and
`longestStreak = max(longestStreak, currentStreak)`. -/
def logHabitEntry (s : HabitState) (today : ℕ) (p : EntryPatch) : HabitState :=
  let entries := upsertDailyEntry s.entries today p
  if p.completed then
    let yesterdayEntry := entries.find? (fun e => e.day == today - 1 && e.completed)
    let cur := if yesterdayEntry.isSome then s.stats.currentStreak + 1 else 1
    { entries := entries
      stats :=
        { totalCompletions := s.stats.totalCompletions + 1
          currentStreak := cur
          longestStreak := max s.stats.longestStreak cur
          lastCompleted := some today } }
  else
    { entries := entries, stats := s.stats }

/-! ## Statistics period selection (routes/habits.js 243–258, routes/moods.js 150–165) -/

/-- The `switch (period)` in both stats routes: `const { period = 'week' } =
req.query` defaults an absent parameter to `'week'`; `week`/`month`/`year`
map to a 7/30/365-day lookback and anything else hits the `default:` arm,
also 7 days. -/
def periodLookbackDays (period : Option String) : ℕ :=
  match period.getD "week" with
  | "week" => 7
  | "month" => 30
  | "year" => 365
  | _ => 7

/-! ## Habit statistics (routes/habits.js 241–289) -/

/-- A `Habit` document, restricted to the fields the stats route reads:
its `name` and the cached `stats` subdocument. -/
structure Habit where
  name : String
  stats : HabitStats
deriving Repr, DecidableEq

/-- One row of the `topHabits` ranking. -/
structure TopHabit where
  name : String
  streak : ℕ
deriving Repr, DecidableEq

/-- Result object of `GET /api/habits/stats`. -/
structure HabitStatsResult where
  totalHabits : ℕ
  totalCompletions : ℕ
  completionRate : ℤ
  topHabits : List TopHabit
deriving Repr, DecidableEq

/-- Lines 260–279 of routes/habits.js (`router.get('/stats')`): `habits` is
the user's active habits, `completedEntries` the user's completed entries in
the lookback window; `completionRate = round(entries/(habits*7)*100)` is
guarded by `habits.length > 0` (else `0`), and `topHabits` is the first five
habits after a stable descending sort by `stats.currentStreak`
(comparator `b.stats.currentStreak - a.stats.currentStreak`). -/
def habitStats (habits : List Habit) (completedEntries : List HabitEntry) :
    HabitStatsResult :=
  { totalHabits := habits.length
    totalCompletions := completedEntries.length
    completionRate :=
      if habits.length > 0 then
        jsRound ((completedEntries.length : ℚ) / ((habits.length : ℚ) * 7) * 100)
      else 0
    topHabits :=
      (((habits.mergeSort
            (fun a b => decide (b.stats.currentStreak ≤ a.stats.currentStreak))).take 5).map
        (fun h => { name := h.name, streak := h.stats.currentStreak })) }

/-! ## Goals (models/Goal.js = src/unnamed/part_001, routes/goals.js) -/

/-- The `status` enum of the Goal schema. -/
inductive GoalStatus
  | active
  | completed
  | paused
  | cancelled
deriving Repr, DecidableEq

/-- One element of `goal.milestones`: `completed` defaults to `false`,
`completedAt` starts unset. -/
structure Milestone where
  title : String
  targetValue : ℕ
  completed : Bool
  completedAt : Option ℕ
deriving Repr, DecidableEq

/-- One element of `goal.progress`: `{date, value, notes}`. -/
structure ProgressRecord where
  date : ℕ
  value : ℕ
  notes : Option String
deriving Repr, DecidableEq

/-- A `Goal` document, restricted to the fields the embedded routes read or
write.  `targetValue` is optional in the schema (required only for the
`target`/`milestone` types), hence `Option ℕ`; the deadline is a point in
time measured in days (`ℚ`, fractional within a day). -/
structure Goal where
  title : String
  targetValue : Option ℕ
  currentValue : ℕ
  status : GoalStatus
  milestones : List Milestone
  progress : List ProgressRecord
  deadline : ℚ
deriving Repr, DecidableEq

/-- A freshly created goal (`new Goal({...})` with schema defaults):
`currentValue = 0`, `status = 'active'`, empty `progress`. -/
def goalInit (title : String) (targetValue : Option ℕ) (milestones : List Milestone)
    (deadline : ℚ) : Goal :=
  { title := title, targetValue := targetValue, currentValue := 0,
    status := GoalStatus.active, milestones := milestones, progress := [],
    deadline := deadline }

/-- JavaScript comparison `goal.currentValue >= goal.targetValue`: `false`
when `targetValue` is `undefined` (NaN comparison). -/
def targetReached (targetValue : Option ℕ) (currentValue : ℕ) : Bool :=
  match targetValue with
  | some t => decide (t ≤ currentValue)
  | none => false

/-- The body of the `goal.milestones.forEach` callback (routes/goals.js
161–166): a not-yet-completed milestone whose target is reached by the updated
`currentValue` is marked completed with `completedAt = now`. -/
def milestoneStep (currentValue now : ℕ) (m : Milestone) : Milestone :=
  if ¬m.completed ∧ m.targetValue ≤ currentValue then
    { m with completed := true, completedAt := some now }
  else m

/-- The whole `forEach` over `goal.milestones` (routes/goals.js 160–167);
the `milestones.length > 0` guard is a no-op on the empty list. -/
def updateMilestones (currentValue now : ℕ) (ms : List Milestone) : List Milestone :=
  ms.map (milestoneStep currentValue now)

/-- Lines 144–169 of routes/goals.js (`router.post('/:id/progress')`): append
a progress record, add the validated non-negative `value` to `currentValue`,
flip `status` from `active` to `completed` once the target is reached, and run
the milestone check against the updated `currentValue`. -/
def applyProgress (g : Goal) (now : ℕ) (value : ℕ) (notes : Option String) : Goal :=
  let progress := g.progress ++ [{ date := now, value := value, notes := notes }]
  let currentValue := g.currentValue + value
  let status :=
    if targetReached g.targetValue currentValue ∧ g.status = GoalStatus.active then
      GoalStatus.completed
    else g.status
  { g with
    progress := progress
    currentValue := currentValue
    status := status
    milestones := updateMilestones currentValue now g.milestones }

/-- One call to `POST /api/goals/:id/progress`: its timestamp and body. -/
structure ProgressCall where
  now : ℕ
  value : ℕ
  notes : Option String
deriving Repr, DecidableEq

/-- A sequence of progress calls applied in order. -/
def applyProgressSeq (g : Goal) (calls : List ProgressCall) : Goal :=
  calls.foldl (fun g c => applyProgress g c.now c.value c.notes) g

/-- The `progressPercentage` virtual of the Goal schema (part_001 112–117):
`min(round(currentValue/targetValue*100), 100)` when `targetValue` is present
and positive, else `0`. -/
def progressPercentage (g : Goal) : ℤ :=
  match g.targetValue with
  | some t =>
      if 0 < t then min (jsRound ((g.currentValue : ℚ) / (t : ℚ) * 100)) 100 else 0
  | none => 0

/-- The `daysRemaining` virtual (part_001 120–126): `max(0, ceil(deadline - now))`
with both instants measured in days. -/
def daysRemaining (now : ℚ) (g : Goal) : ℤ :=
  max 0 ⌈g.deadline - now⌉

/-- One row of the `upcomingDeadlines` ranking in the goal stats route. -/
structure DeadlineItem where
  title : String
  daysRemaining : ℤ
  progressPercentage : ℤ
deriving Repr, DecidableEq

/-- Result object of `GET /api/goals/stats`. -/
structure GoalStatsResult where
  total : ℕ
  active : ℕ
  completed : ℕ
  paused : ℕ
  cancelled : ℕ
  completionRate : ℤ
  averageProgress : ℤ
  upcomingDeadlines : List DeadlineItem
deriving Repr, DecidableEq

/-- Lines 209–229 of routes/goals.js (`router.get('/stats')`): counts by
status, `completionRate` and `averageProgress` guarded by `goals.length > 0`
(else `0`), and the five most urgent active goals with a deadline within
7 days, sorted ascending by `daysRemaining` (stable sort). -/
def goalStats (now : ℚ) (goals : List Goal) : GoalStatsResult :=
  let completedCount := (goals.filter (fun g => g.status == GoalStatus.completed)).length
  { total := goals.length
    active := (goals.filter (fun g => g.status == GoalStatus.active)).length
    completed := completedCount
    paused := (goals.filter (fun g => g.status == GoalStatus.paused)).length
    cancelled := (goals.filter (fun g => g.status == GoalStatus.cancelled)).length
    completionRate :=
      if goals.length > 0 then
        jsRound ((completedCount : ℚ) / (goals.length : ℚ) * 100)
      else 0
    averageProgress :=
      if goals.length > 0 then
        jsRound ((goals.map (fun g => (progressPercentage g : ℚ))).sum / (goals.length : ℚ))
      else 0
    upcomingDeadlines :=
      ((((goals.filter
            (fun g => g.status == GoalStatus.active && decide (daysRemaining now g ≤ 7))).mergeSort
          (fun a b => decide (daysRemaining now a ≤ daysRemaining now b))).take 5).map
        (fun g => { title := g.title, daysRemaining := daysRemaining now g,
                    progressPercentage := progressPercentage g })) }

/-! ## Moods (models/Mood.js = src/unnamed/part_002, routes/moods.js) -/

/-- The `mood` enum. -/
inductive MoodKind
  | excellent
  | good
  | okay
  | poor
  | terrible
deriving Repr, DecidableEq

/-- The `sleep.quality` enum. -/
inductive SleepQuality
  | excellent
  | good
  | fair
  | poor
deriving Repr, DecidableEq

/-- The optional `sleep` subdocument of a Mood document. -/
structure SleepInfo where
  hours : Option ℚ
  quality : Option SleepQuality
deriving Repr, DecidableEq

/-- One Mood document, restricted to the fields the stats route reads. -/
structure MoodEntry where
  day : ℕ
  mood : MoodKind
  energy : ℕ
  stress : ℕ
  sleep : Option SleepInfo
  notes : Option String
deriving Repr, DecidableEq

/-- The `moodCounts` histogram (all five counters start at zero). -/
structure MoodDistribution where
  excellent : ℕ
  good : ℕ
  okay : ℕ
  poor : ℕ
  terrible : ℕ
deriving Repr, DecidableEq

/-- The `sleepQualityCounts` histogram. -/
structure SleepQualityDistribution where
  excellent : ℕ
  good : ℕ
  fair : ℕ
  poor : ℕ
deriving Repr, DecidableEq

/-- One element of `recentTrend`. -/
structure TrendPoint where
  day : ℕ
  mood : MoodKind
  energy : ℕ
  stress : ℕ
deriving Repr, DecidableEq

/-- Result object of `GET /api/moods/stats`. -/
structure MoodStatsResult where
  totalEntries : ℕ
  moodDistribution : MoodDistribution
  averageEnergy : ℚ
  averageStress : ℚ
  averageSleepHours : ℚ
  sleepQualityDistribution : SleepQualityDistribution
  recentTrend : List TrendPoint
deriving Repr, DecidableEq

/-- JavaScript `Math.round(x * 10) / 10` used for the mood averages. -/
def jsRound1 (q : ℚ) : ℚ := (jsRound (q * 10) : ℚ) / 10

/-- Lines 167–210 of routes/moods.js (`router.get('/stats')`): the `forEach`
accumulation is denoted by counts and sums over the fetched list; each average
is guarded by `moods.length > 0` (else `0`).  `totalSleepHours` only receives
truthy `sleep.hours` values, which is the same sum since a skipped `0`
contributes nothing. -/
def moodStats (moods : List MoodEntry) : MoodStatsResult :=
  let count := fun (k : MoodKind) => (moods.filter (fun m => m.mood == k)).length
  let qcount := fun (q : SleepQuality) =>
    (moods.filter (fun m =>
      match m.sleep with
      | some s => s.quality == some q
      | none => false)).length
  let totalEnergy : ℕ := (moods.map (fun m => m.energy)).sum
  let totalStress : ℕ := (moods.map (fun m => m.stress)).sum
  let totalSleepHours : ℚ :=
    (moods.map (fun m =>
      match m.sleep with
      | some s => s.hours.getD 0
      | none => 0)).sum
  { totalEntries := moods.length
    moodDistribution :=
      { excellent := count MoodKind.excellent, good := count MoodKind.good,
        okay := count MoodKind.okay, poor := count MoodKind.poor,
        terrible := count MoodKind.terrible }
    averageEnergy :=
      if moods.length > 0 then jsRound1 ((totalEnergy : ℚ) / (moods.length : ℚ)) else 0
    averageStress :=
      if moods.length > 0 then jsRound1 ((totalStress : ℚ) / (moods.length : ℚ)) else 0
    averageSleepHours :=
      if moods.length > 0 then jsRound1 (totalSleepHours / (moods.length : ℚ)) else 0
    sleepQualityDistribution :=
      { excellent := qcount SleepQuality.excellent, good := qcount SleepQuality.good,
        fair := qcount SleepQuality.fair, poor := qcount SleepQuality.poor }
    recentTrend :=
      (moods.take 7).map (fun m =>
        { day := m.day, mood := m.mood, energy := m.energy, stress := m.stress }) }

/-! ## Helper lemmas about the daily upsert -/

lemma mergePatch_day (e : HabitEntry) (p : EntryPatch) : (mergePatch e p).day = e.day := rfl

lemma newEntry_day (d : ℕ) (p : EntryPatch) : (newEntry d p).day = d := rfl

lemma upsertDailyEntry_of_day_fresh (entries : List HabitEntry) (d : ℕ) (p : EntryPatch)
    (h : ∀ e ∈ entries, e.day ≠ d) :
    upsertDailyEntry entries d p = entries ++ [newEntry d p] := by
  induction entries with
  | nil => rfl
  | cons x rest ih =>
      have hx : x.day ≠ d := h x (List.mem_cons_self _ _)
      simp [upsertDailyEntry, hx, ih (fun e he => h e (List.mem_cons_of_mem _ he))]

lemma upsertDailyEntry_of_day_found (l₁ : List HabitEntry) (e : HabitEntry)
    (l₂ : List HabitEntry) (d : ℕ) (p : EntryPatch)
    (h₁ : ∀ x ∈ l₁, x.day ≠ d) (he : e.day = d) :
    upsertDailyEntry (l₁ ++ e :: l₂) d p = l₁ ++ mergePatch e p :: l₂ := by
  induction l₁ with
  | nil => simp [upsertDailyEntry, he]
  | cons x rest ih =>
      have hx : x.day ≠ d := h₁ x (List.mem_cons_self _ _)
      simp [upsertDailyEntry, hx, ih (fun y hy => h₁ y (List.mem_cons_of_mem _ hy))]

lemma mem_upsertDailyEntry_iff (entries : List HabitEntry) (d : ℕ) (p : EntryPatch)
    (e : HabitEntry) (hne : e.day ≠ d) :
    e ∈ upsertDailyEntry entries d p ↔ e ∈ entries := by
  induction entries with
  | nil =>
      simp only [upsertDailyEntry, List.mem_singleton, List.not_mem_nil, iff_false]
      intro hcontra
      exact hne (by rw [hcontra, newEntry_day])
  | cons x rest ih =>
      by_cases hx : x.day = d
      · simp only [upsertDailyEntry, hx, if_true, List.mem_cons]
        constructor
        · rintro (h | h)
          · exact absurd (by rw [h, mergePatch_day, hx]) hne
          · exact Or.inr h
        · rintro (h | h)
          · exact absurd (by rw [h, hx]) hne
          · exact Or.inr h
      · simp only [upsertDailyEntry, hx, if_false, List.mem_cons, ih]

/-! ## Claim theorems -/

/-- C1: the claim says a second same-day `completed=true` habit-entry request
must leave `totalCompletions` and `currentStreak` at their post-first-request
values.  The code re-runs the whole stats block on every `completed=true`
request: starting from a habit with one completed entry on day 4 and stats
`{totalCompletions := 1, currentStreak := 1}`, two identical completed
requests on day 5 yield `totalCompletions = 2, currentStreak = 2` after the
first and `totalCompletions = 3, currentStreak = 3` after the second — the
second same-day request double-increments both. -/
theorem habit_same_day_double_completion_increments_again :
    (logHabitEntry
        (logHabitEntry
          { entries := [{ day := 4, completed := true, value := 0, notes := none }]
            stats := { totalCompletions := 1, currentStreak := 1, longestStreak := 1,
                       lastCompleted := some 4 } }
          5 { completed := true, value := none, notes := none })
        5 { completed := true, value := none, notes := none }).stats.totalCompletions = 3 ∧
    (logHabitEntry
        (logHabitEntry
          { entries := [{ day := 4, completed := true, value := 0, notes := none }]
            stats := { totalCompletions := 1, currentStreak := 1, longestStreak := 1,
                       lastCompleted := some 4 } }
          5 { completed := true, value := none, notes := none })
        5 { completed := true, value := none, notes := none }).stats.currentStreak = 3 ∧
    (logHabitEntry
        { entries := [{ day := 4, completed := true, value := 0, notes := none }]
          stats := { totalCompletions := 1, currentStreak := 1, longestStreak := 1,
                     lastCompleted := some 4 } }
        5 { completed := true, value := none, notes := none }).stats.totalCompletions = 2 ∧
    (logHabitEntry
        { entries := [{ day := 4, completed := true, value := 0, notes := none }]
          stats := { totalCompletions := 1, currentStreak := 1, longestStreak := 1,
                     lastCompleted := some 4 } }
        5 { completed := true, value := none, notes := none }).stats.currentStreak = 2 := by
  decide

/-- C7: after any habit-entry request with `completed = true`, the updated
stats satisfy `longestStreak ≥ currentStreak`, because the code sets
`longestStreak = max(longestStreak, currentStreak)` right after recomputing
`currentStreak`. -/
theorem habit_longest_ge_current (s : HabitState) (today : ℕ) (p : EntryPatch)
    (hc : p.completed = true) :
    (logHabitEntry s today p).stats.currentStreak ≤
      (logHabitEntry s today p).stats.longestStreak := by
  simp only [logHabitEntry, hc, if_true]
  exact le_max_right _ _

/-- Witness for C7 at a concrete habit state and request. -/
theorem habit_longest_ge_current_witness :
    (logHabitEntry ⟨[], ⟨0, 0, 0, none⟩⟩ 5 ⟨true, none, none⟩).stats.currentStreak ≤
    (logHabitEntry ⟨[], ⟨0, 0, 0, none⟩⟩ 5 ⟨true, none, none⟩).stats.longestStreak :=
  habit_longest_ge_current ⟨[], ⟨0, 0, 0, none⟩⟩ 5 ⟨true, none, none⟩ rfl

/-- C10: a habit-entry request with `completed = false` — creating, rewriting
or un-completing the day's entry — leaves every field of the cached stats
unchanged, because the whole stats block is guarded by `if (req.body.completed)`. -/
theorem habit_stats_frame_on_uncompleted (s : HabitState) (today : ℕ) (p : EntryPatch)
    (hc : p.completed = false) :
    (logHabitEntry s today p).stats = s.stats := by
  simp [logHabitEntry, hc]

/-- Witness for C10: un-completing a day that was previously completed (and
already counted) leaves the stats untouched. -/
theorem habit_stats_frame_on_uncompleted_witness :
    (logHabitEntry
      { entries := [{ day := 5, completed := true, value := 0, notes := none }]
        stats := { totalCompletions := 3, currentStreak := 2, longestStreak := 2,
                   lastCompleted := some 5 } }
      5 { completed := false, value := none, notes := none }).stats =
    { totalCompletions := 3, currentStreak := 2, longestStreak := 2,
      lastCompleted := some 5 } :=
  habit_stats_frame_on_uncompleted _ 5 _ rfl

/-- C8: the stats period parameter maps `week`/`month`/`year` to a
7/30/365-day lookback; an absent parameter defaults to `week`, and any other
string falls through to the 7-day `default:` arm. -/
theorem stats_period_window_selection :
    periodLookbackDays none = 7 ∧
    periodLookbackDays (some "week") = 7 ∧
    periodLookbackDays (some "month") = 30 ∧
    periodLookbackDays (some "year") = 365 ∧
    ∀ s : String, s ≠ "week" → s ≠ "month" → s ≠ "year" →
      periodLookbackDays (some s) = 7 := by
  refine ⟨rfl, rfl, rfl, rfl, ?_⟩
  intro s h1 h2 h3
  simp only [periodLookbackDays, Option.getD_some]

/-- Witness for C8 at the unrecognized period string `decade`. -/
theorem stats_period_window_selection_witness :
    periodLookbackDays (some "decade") = 7 :=
  stats_period_window_selection.2.2.2.2 "decade" (by decide) (by decide) (by decide)

/-- C9: over an empty collection all three summary-statistics routes — mood
stats, habit stats and goal stats — return all-zero aggregates: zero counts,
zero (guarded) averages and rates, all-zero histograms, and empty
trend/ranking lists — rather than an error: every division is behind a
`length > 0` check. -/
theorem empty_collection_zero_stats (now : ℚ) :
    moodStats [] =
      { totalEntries := 0
        moodDistribution := { excellent := 0, good := 0, okay := 0, poor := 0, terrible := 0 }
        averageEnergy := 0
        averageStress := 0
        averageSleepHours := 0
        sleepQualityDistribution := { excellent := 0, good := 0, fair := 0, poor := 0 }
        recentTrend := [] } ∧
    habitStats [] [] =
      { totalHabits := 0, totalCompletions := 0, completionRate := 0, topHabits := [] } ∧
    goalStats now [] =
      { total := 0, active := 0, completed := 0, paused := 0, cancelled := 0,
        completionRate := 0, averageProgress := 0, upcomingDeadlines := [] } := by
  refine ⟨rfl, ?_, ?_⟩
  · simp [habitStats, List.mergeSort_nil]
  · simp [goalStats, List.mergeSort_nil]

/-- C2: streak continuity. When a completed habit entry is logged on day
`today`, the updated `currentStreak` is the previous value plus one if the
entry collection holds a completed entry for `today - 1`, and exactly `1`
otherwise (no entry, or an uncompleted entry) — regardless of any earlier
history, since the code looks back exactly one day. -/
theorem habit_streak_continuity (s : HabitState) (today : ℕ) (p : EntryPatch)
    (htoday : 0 < today) (hc : p.completed = true) :
    ((∃ e ∈ s.entries, e.day = today - 1 ∧ e.completed = true) →
      (logHabitEntry s today p).stats.currentStreak = s.stats.currentStreak + 1) ∧
    ((¬ ∃ e ∈ s.entries, e.day = today - 1 ∧ e.completed = true) →
      (logHabitEntry s today p).stats.currentStreak = 1) := by
  have hne : today - 1 ≠ today := by omega
  have hkey :
      ((upsertDailyEntry s.entries today p).find?
          (fun e => e.day == today - 1 && e.completed)).isSome ↔
        ∃ e ∈ s.entries, e.day = today - 1 ∧ e.completed = true := by
    rw [List.find?_isSome]
    constructor
    · rintro ⟨e, hmem, hpe⟩
      have h1 : e.day = today - 1 ∧ e.completed = true := by
        simpa [Bool.and_eq_true] using hpe
      exact ⟨e, (mem_upsertDailyEntry_iff s.entries today p e (h1.1 ▸ hne)).mp hmem, h1⟩
    · rintro ⟨e, hmem, h1, h2⟩
      refine ⟨e, (mem_upsertDailyEntry_iff s.entries today p e (h1 ▸ hne)).mpr hmem, ?_⟩
      simp [h1, h2]
  constructor
  · intro hex
    simp only [logHabitEntry, hc, if_true]
    simp [hkey.mpr hex]
  · intro hnex
    simp only [logHabitEntry, hc, if_true]
    simp [hkey, hnex]

/-- Witness for C2: a habit with a completed entry on day 4 and
`currentStreak = 1`; a completed request on day 5 raises the streak to 2,
and had day 4 lacked a completed entry the streak would be 1. -/
theorem habit_streak_continuity_witness :
    0 < 5 ∧
    (((∃ e ∈ [(⟨4, true, 0, none⟩ : HabitEntry)], e.day = 5 - 1 ∧ e.completed = true) →
        (logHabitEntry ⟨[⟨4, true, 0, none⟩], ⟨1, 1, 1, some 4⟩⟩ 5
            ⟨true, none, none⟩).stats.currentStreak = 2) ∧
     ((¬ ∃ e ∈ [(⟨4, true, 0, none⟩ : HabitEntry)], e.day = 5 - 1 ∧ e.completed = true) →
        (logHabitEntry ⟨[⟨4, true, 0, none⟩], ⟨1, 1, 1, some 4⟩⟩ 5
            ⟨true, none, none⟩).stats.currentStreak = 1)) :=
  ⟨by decide,
   habit_streak_continuity ⟨[⟨4, true, 0, none⟩], ⟨1, 1, 1, some 4⟩⟩ 5 ⟨true, none, none⟩
     (by decide) rfl⟩

/-! ## Helper lemmas about goal progress -/

lemma applyProgress_targetValue (g : Goal) (now v : ℕ) (notes : Option String) :
    (applyProgress g now v notes).targetValue = g.targetValue := rfl

lemma applyProgress_currentValue (g : Goal) (now v : ℕ) (notes : Option String) :
    (applyProgress g now v notes).currentValue = g.currentValue + v := rfl

lemma applyProgress_status_char (g : Goal) (now v : ℕ) (notes : Option String) (T : ℕ)
    (hT : g.targetValue = some T)
    (hs : g.status = if T ≤ g.currentValue then GoalStatus.completed else GoalStatus.active) :
    (applyProgress g now v notes).status =
      (if T ≤ g.currentValue + v then GoalStatus.completed else GoalStatus.active) := by
  by_cases hc : T ≤ g.currentValue
  · have hs' : g.status = GoalStatus.completed := by rw [hs, if_pos hc]
    have hcv : T ≤ g.currentValue + v := le_trans hc (Nat.le_add_right _ _)
    simp [applyProgress, targetReached, hT, hs', hcv]
  · have hs' : g.status = GoalStatus.active := by rw [hs, if_neg hc]
    by_cases hc' : T ≤ g.currentValue + v
    · simp [applyProgress, targetReached, hT, hs', hc']
    · simp [applyProgress, targetReached, hT, hs', hc']

lemma applyProgressSeq_char (T : ℕ) :
    ∀ (calls : List ProgressCall) (g : Goal),
      g.targetValue = some T →
      g.status = (if T ≤ g.currentValue then GoalStatus.completed else GoalStatus.active) →
      (applyProgressSeq g calls).currentValue =
          g.currentValue + (calls.map (fun c => c.value)).sum ∧
      (applyProgressSeq g calls).status =
          (if T ≤ g.currentValue + (calls.map (fun c => c.value)).sum then
            GoalStatus.completed else GoalStatus.active) := by
  intro calls
  induction calls with
  | nil =>
      intro g hT hs
      constructor
      · simp [applyProgressSeq]
      · simpa [applyProgressSeq] using hs
  | cons c rest ih =>
      intro g hT hs
      have hstep := applyProgress_status_char g c.now c.value c.notes T hT hs
      have hcv : (applyProgress g c.now c.value c.notes).currentValue =
          g.currentValue + c.value := rfl
      have hTv : (applyProgress g c.now c.value c.notes).targetValue = some T := hT
      have hstep' : (applyProgress g c.now c.value c.notes).status =
          (if T ≤ (applyProgress g c.now c.value c.notes).currentValue then
            GoalStatus.completed else GoalStatus.active) := by
        rw [hcv]; exact hstep
      obtain ⟨ihc, ihs⟩ := ih (applyProgress g c.now c.value c.notes) hTv hstep'
      have hseq : applyProgressSeq g (c :: rest) =
          applyProgressSeq (applyProgress g c.now c.value c.notes) rest := rfl
      constructor
      · rw [hseq, ihc, hcv]
        simp [Nat.add_assoc]
      · rw [hseq, ihs, hcv]
        simp [Nat.add_assoc]

/-- C3: starting from a fresh goal with positive target `T`, after any prefix
of a sequence of progress calls the goal's `currentValue` equals the sum of
the applied deltas, and its `status` is `completed` exactly when that running
sum has reached `T` (else still `active`).  Since prefix sums are
non-decreasing, the status flips to `completed` at the first call whose
cumulative sum reaches `T` and never reverts afterwards. -/
theorem goal_progress_sum_and_one_way_completion (title : String) (T : ℕ)
    (ms : List Milestone) (dl : ℚ) (calls : List ProgressCall) (hT : 0 < T) (n : ℕ) :
    (applyProgressSeq (goalInit title (some T) ms dl) (calls.take n)).currentValue =
        ((calls.take n).map (fun c => c.value)).sum ∧
    (applyProgressSeq (goalInit title (some T) ms dl) (calls.take n)).status =
        (if T ≤ ((calls.take n).map (fun c => c.value)).sum then GoalStatus.completed
         else GoalStatus.active) := by
  have hT0 : ¬ T ≤ 0 := by omega
  have h0s : (goalInit title (some T) ms dl).status =
      (if T ≤ (goalInit title (some T) ms dl).currentValue then GoalStatus.completed
       else GoalStatus.active) := by
    simp [goalInit, hT0]
  have h := applyProgressSeq_char T (calls.take n) (goalInit title (some T) ms dl) rfl h0s
  simpa [goalInit] using h

/-- Witness for C3: target 2 with two progress calls of value 1; after both
calls the current value is 2 and the status is completed. -/
theorem goal_progress_sum_and_one_way_completion_witness :
    (applyProgressSeq (goalInit "read" (some 2) [] 0)
        (([(⟨0, 1, none⟩ : ProgressCall), ⟨1, 1, none⟩]).take 2)).currentValue =
      ((([(⟨0, 1, none⟩ : ProgressCall), ⟨1, 1, none⟩]).take 2).map (fun c => c.value)).sum ∧
    (applyProgressSeq (goalInit "read" (some 2) [] 0)
        (([(⟨0, 1, none⟩ : ProgressCall), ⟨1, 1, none⟩]).take 2)).status =
      (if 2 ≤ ((([(⟨0, 1, none⟩ : ProgressCall), ⟨1, 1, none⟩]).take 2).map
          (fun c => c.value)).sum then GoalStatus.completed else GoalStatus.active) :=
  goal_progress_sum_and_one_way_completion "read" 2 [] 0
    [⟨0, 1, none⟩, ⟨1, 1, none⟩] (by decide) 2

/-! ## Helper lemmas about milestones -/

lemma milestoneStep_char (cv now : ℕ) (m : Milestone) :
    (m.completed = true → milestoneStep cv now m = m) ∧
    (m.completed = false →
      m.targetValue ≤ cv →
        milestoneStep cv now m = { m with completed := true, completedAt := some now }) ∧
    (m.completed = false → cv < m.targetValue → milestoneStep cv now m = m) := by
  refine ⟨?_, ?_, ?_⟩
  · intro h; simp [milestoneStep, h]
  · intro h h2; simp [milestoneStep, h, h2]
  · intro h h2; simp [milestoneStep, h, Nat.not_le.mpr h2]

lemma forall₂_map_self {α : Type} (f : α → α) (P : α → α → Prop)
    (h : ∀ a, P a (f a)) : ∀ l : List α, List.Forall₂ P l (l.map f)
  | [] => List.Forall₂.nil
  | a :: l => List.Forall₂.cons (h a) (forall₂_map_self f P h l)

/-- C4: in one progress call, pairing each input milestone with its output:
an already-completed milestone is left unchanged; a pending milestone whose
target is reached by the updated `currentValue` is set to completed with
`completedAt = now`; a pending milestone above the updated `currentValue` is
left unchanged — so all qualifying milestones flip in this same call.  The
milestone update is an elementwise map, so permuting the milestone list
permutes the output identically: the result does not depend on the order of
examination. -/
theorem goal_milestones_flip_in_same_call (g : Goal) (now value : ℕ) (notes : Option String) :
    List.Forall₂ (fun old new =>
        (old.completed = true → new = old) ∧
        (old.completed = false →
          old.targetValue ≤ g.currentValue + value →
            new = { old with completed := true, completedAt := some now }) ∧
        (old.completed = false → g.currentValue + value < old.targetValue → new = old))
      g.milestones (applyProgress g now value notes).milestones ∧
    (∀ ms₁ ms₂ : List Milestone, ms₁.Perm ms₂ →
      (updateMilestones (g.currentValue + value) now ms₁).Perm
        (updateMilestones (g.currentValue + value) now ms₂)) := by
  constructor
  · have hms : (applyProgress g now value notes).milestones =
        (g.milestones.map (milestoneStep (g.currentValue + value) now)) := rfl
    rw [hms]
    refine forall₂_map_self _ _ ?_ g.milestones
    intro m
    exact milestoneStep_char (g.currentValue + value) now m
  · intro ms₁ ms₂ hp
    exact hp.map _

/-- Witness for C4: a goal at `currentValue = 0` with one already-completed
milestone and two pending ones (targets 6 and 12); a progress call of value 6
flips exactly the target-6 milestone. -/
theorem goal_milestones_flip_in_same_call_witness :
    List.Forall₂ (fun old new =>
        (old.completed = true → new = old) ∧
        (old.completed = false →
          old.targetValue ≤ 0 + 6 →
            new = { old with completed := true, completedAt := some (9 : ℕ) }) ∧
        (old.completed = false → 0 + 6 < old.targetValue → new = old))
      [(⟨"a", 1, true, some 0⟩ : Milestone), ⟨"b", 6, false, none⟩, ⟨"c", 12, false, none⟩]
      (applyProgress
        ⟨"goal", some 12, 0, GoalStatus.active,
          [⟨"a", 1, true, some 0⟩, ⟨"b", 6, false, none⟩, ⟨"c", 12, false, none⟩], [], 0⟩
        9 6 none).milestones ∧
    (∀ ms₁ ms₂ : List Milestone, ms₁.Perm ms₂ →
      (updateMilestones (0 + 6) 9 ms₁).Perm (updateMilestones (0 + 6) 9 ms₂)) :=
  goal_milestones_flip_in_same_call
    ⟨"goal", some 12, 0, GoalStatus.active,
      [⟨"a", 1, true, some 0⟩, ⟨"b", 6, false, none⟩, ⟨"c", 12, false, none⟩], [], 0⟩
    9 6 none

/-- C5: the derived `progressPercentage` equals
`min(round(currentValue/targetValue*100), 100)` whenever `targetValue` is
present and positive — and then always lies in `[0, 100]` for the
(non-negative) `currentValue` — and is exactly `0` when `targetValue` is `0`
or absent. -/
theorem goal_progress_percentage_in_range (g : Goal) :
    (∀ t : ℕ, g.targetValue = some t → 0 < t →
      progressPercentage g = min (jsRound ((g.currentValue : ℚ) / (t : ℚ) * 100)) 100 ∧
      0 ≤ progressPercentage g ∧ progressPercentage g ≤ 100) ∧
    (g.targetValue = some 0 → progressPercentage g = 0) ∧
    (g.targetValue = none → progressPercentage g = 0) := by
  refine ⟨?_, ?_, ?_⟩
  · intro t ht hpos
    have h1 : progressPercentage g =
        min (jsRound ((g.currentValue : ℚ) / (t : ℚ) * 100)) 100 := by
      simp [progressPercentage, ht, hpos]
    refine ⟨h1, ?_, ?_⟩
    · rw [h1]
      have hq : (0 : ℚ) ≤ (g.currentValue : ℚ) / (t : ℚ) * 100 := by positivity
      have hfl : (0 : ℤ) ≤ jsRound ((g.currentValue : ℚ) / (t : ℚ) * 100) := by
        unfold jsRound
        apply Int.floor_nonneg.mpr
        linarith
      exact le_min hfl (by norm_num)
    · rw [h1]
      exact min_le_right _ _
  · intro ht
    simp [progressPercentage, ht]
  · intro ht
    simp [progressPercentage, ht]

/-- Witness for C5 at a goal with target 3 and current value 1: the
percentage is `min(round(100/3), 100)` and lies in the unit-percentage
range. -/
theorem goal_progress_percentage_in_range_witness :
    progressPercentage ⟨"g", some 3, 1, GoalStatus.active, [], [], 0⟩ =
        min (jsRound (((1 : ℕ) : ℚ) / ((3 : ℕ) : ℚ) * 100)) 100 ∧
    0 ≤ progressPercentage ⟨"g", some 3, 1, GoalStatus.active, [], [], 0⟩ ∧
    progressPercentage ⟨"g", some 3, 1, GoalStatus.active, [], [], 0⟩ ≤ 100 :=
  (goal_progress_percentage_in_range ⟨"g", some 3, 1, GoalStatus.active, [], [], 0⟩).1
    3 rfl (by decide)

/-- C6: the daily-entry upsert is idempotent per day.  Starting from a store
with no entry on day `d` (and none on `d + 1`), two same-day calls with
different patches leave exactly one stored entry for day `d`; its fields are
the first patch's entry overwritten by the second patch (`completed` is taken
from the last patch, and any `value`/`notes` the last patch supplies win).
A third call on day `d + 1` creates a second, distinct entry whose `day` is
that day's start, growing the store by exactly two entries overall. -/
theorem daily_upsert_idempotent_per_day (store : List HabitEntry) (d : ℕ)
    (p₁ p₂ p₃ : EntryPatch)
    (hd : ∀ e ∈ store, e.day ≠ d) (hd1 : ∀ e ∈ store, e.day ≠ d + 1) :
    ((upsertDailyEntry (upsertDailyEntry store d p₁) d p₂).filter
        (fun e => e.day == d)) = [mergePatch (newEntry d p₁) p₂] ∧
    (mergePatch (newEntry d p₁) p₂).completed = p₂.completed ∧
    (∀ v, p₂.value = some v → (mergePatch (newEntry d p₁) p₂).value = v) ∧
    (∀ nt, p₂.notes = some nt → (mergePatch (newEntry d p₁) p₂).notes = some nt) ∧
    ((upsertDailyEntry (upsertDailyEntry (upsertDailyEntry store d p₁) d p₂)
        (d + 1) p₃).filter (fun e => e.day == d + 1)) = [newEntry (d + 1) p₃] ∧
    (newEntry (d + 1) p₃).day = d + 1 ∧
    (upsertDailyEntry (upsertDailyEntry (upsertDailyEntry store d p₁) d p₂)
        (d + 1) p₃).length = store.length + 2 := by
  have h1 : upsertDailyEntry store d p₁ = store ++ [newEntry d p₁] :=
    upsertDailyEntry_of_day_fresh store d p₁ hd
  have hs2 : upsertDailyEntry (upsertDailyEntry store d p₁) d p₂ =
      store ++ [mergePatch (newEntry d p₁) p₂] := by
    rw [h1]
    exact upsertDailyEntry_of_day_found store (newEntry d p₁) [] d p₂ hd rfl
  have hmd : (mergePatch (newEntry d p₁) p₂).day = d := rfl
  have hall : ∀ e ∈ store ++ [mergePatch (newEntry d p₁) p₂], e.day ≠ d + 1 := by
    intro e he
    rcases List.mem_append.mp he with h | h
    · exact hd1 e h
    · rw [List.mem_singleton.mp h, hmd]
      omega
  have hs3 : upsertDailyEntry (upsertDailyEntry (upsertDailyEntry store d p₁) d p₂)
      (d + 1) p₃ =
      (store ++ [mergePatch (newEntry d p₁) p₂]) ++ [newEntry (d + 1) p₃] := by
    rw [hs2]
    exact upsertDailyEntry_of_day_fresh _ _ _ hall
  have hfd : store.filter (fun e => e.day == d) = [] := by
    rw [List.filter_eq_nil_iff]
    intro e he
    simp [hd e he]
  have hfd1 : store.filter (fun e => e.day == d + 1) = [] := by
    rw [List.filter_eq_nil_iff]
    intro e he
    simp [hd1 e he]
  refine ⟨?_, rfl, ?_, ?_, ?_, rfl, ?_⟩
  · rw [hs2, List.filter_append, hfd]
    simp [hmd]
  · intro v hv
    simp [mergePatch, hv]
  · intro nt hn
    simp [mergePatch, hn]
  · rw [hs3, List.filter_append, List.filter_append, hfd1]
    have hne : ((mergePatch (newEntry d p₁) p₂).day == d + 1) = false := by
      simp [hmd]
    simp [hne, newEntry_day]
  · rw [hs3]
    simp

/-- Witness for C6: empty store, day 3, first patch `{completed:false,
value:1}`, second patch `{completed:true, value:2, notes:"done"}`, third-day
patch `{completed:true}`. -/
theorem daily_upsert_idempotent_per_day_witness :
    ((upsertDailyEntry (upsertDailyEntry [] 3 ⟨false, some 1, none⟩) 3
        ⟨true, some 2, some "done"⟩).filter (fun e => e.day == 3)) =
      [mergePatch (newEntry 3 ⟨false, some 1, none⟩) ⟨true, some 2, some "done"⟩] ∧
    (mergePatch (newEntry 3 ⟨false, some 1, none⟩) ⟨true, some 2, some "done"⟩).completed =
      true ∧
    (∀ v, (some 2 : Option ℕ) = some v →
      (mergePatch (newEntry 3 ⟨false, some 1, none⟩) ⟨true, some 2, some "done"⟩).value = v) ∧
    (∀ nt, (some "done" : Option String) = some nt →
      (mergePatch (newEntry 3 ⟨false, some 1, none⟩) ⟨true, some 2, some "done"⟩).notes =
        some nt) ∧
    ((upsertDailyEntry (upsertDailyEntry (upsertDailyEntry [] 3 ⟨false, some 1, none⟩) 3
        ⟨true, some 2, some "done"⟩) (3 + 1) ⟨true, none, none⟩).filter
        (fun e => e.day == 3 + 1)) = [newEntry (3 + 1) ⟨true, none, none⟩] ∧
    (newEntry (3 + 1) (⟨true, none, none⟩ : EntryPatch)).day = 3 + 1 ∧
    (upsertDailyEntry (upsertDailyEntry (upsertDailyEntry [] 3 ⟨false, some 1, none⟩) 3
        ⟨true, some 2, some "done"⟩) (3 + 1) ⟨true, none, none⟩).length =
      List.length ([] : List HabitEntry) + 2 :=
  daily_upsert_idempotent_per_day [] 3 ⟨false, some 1, none⟩ ⟨true, some 2, some "done"⟩
    ⟨true, none, none⟩ (by simp) (by simp)
